import Mathlib

/-!
Shallow embedding of the Magnum excerpt (src/Math/DualComplex.h and
src/Text/TextRenderer.cpp) in Lean 4, with theorems settling the frozen
claims about the natural-language specification.

Scalars are modelled as rationals (the C++ code uses GLfloat; every claim
under scrutiny is an exact structural/algebraic statement that holds over
any field, so ℚ keeps the development executable and decidable).
Machine integers (std::uint32_t, GLubyte, GLushort, GLuint) are modelled
as ℕ with explicit reduction modulo 2^w at every point where the C++
performs a narrowing conversion or unsigned wraparound.
-/

namespace Magnum

/-! ## Math primitives: 2D vectors and rectangles (Magnum::Vector2, Magnum::Rectangle) -/

/-- 2D vector of scalars, as used by the text renderer (Magnum::Vector2). -/
@[ext]
structure Vector2 where
  x : ℚ
  y : ℚ
deriving DecidableEq

instance : Zero Vector2 := ⟨⟨0, 0⟩⟩

instance : Add Vector2 := ⟨fun a b => ⟨a.x + b.x, a.y + b.y⟩⟩

instance : Neg Vector2 := ⟨fun a => ⟨-a.x, -a.y⟩⟩

instance : Sub Vector2 := ⟨fun a b => ⟨a.x - b.x, a.y - b.y⟩⟩

/-- Componentwise scaling of a vector by a scalar (C++ `Vector2 * GLfloat`). -/
instance : HMul Vector2 ℚ Vector2 := ⟨fun a s => ⟨a.x * s, a.y * s⟩⟩

/-- Componentwise division of a vector by a scalar (C++ `Vector2 / GLfloat`). -/
instance : HDiv Vector2 ℚ Vector2 := ⟨fun a s => ⟨a.x / s, a.y / s⟩⟩

instance : AddCommMonoid Vector2 where
  add_assoc a b c := Vector2.ext (add_assoc a.x b.x c.x) (add_assoc a.y b.y c.y)
  zero_add a := Vector2.ext (zero_add a.x) (zero_add a.y)
  add_zero a := Vector2.ext (add_zero a.x) (add_zero a.y)
  add_comm a b := Vector2.ext (add_comm a.x b.x) (add_comm a.y b.y)
  nsmul := nsmulRec

/-- Axis-aligned rectangle given by its bottom-left and top-right corner
(Magnum::Rectangle, i.e. Math::Geometry::Rectangle). -/
structure Rectangle where
  bottomLeft : Vector2
  topRight : Vector2
deriving DecidableEq

/-- `Rectangle::fromSize(bottomLeft, size)`: the rectangle spanning from
`bottomLeft` to `bottomLeft + size`. -/
def Rectangle.fromSize (bl sz : Vector2) : Rectangle := ⟨bl, bl + sz⟩

def Rectangle.left (r : Rectangle) : ℚ := r.bottomLeft.x

def Rectangle.bottom (r : Rectangle) : ℚ := r.bottomLeft.y

def Rectangle.size (r : Rectangle) : Vector2 := r.topRight - r.bottomLeft

def Rectangle.topLeft (r : Rectangle) : Vector2 := ⟨r.bottomLeft.x, r.topRight.y⟩

def Rectangle.bottomRight (r : Rectangle) : Vector2 := ⟨r.topRight.x, r.bottomLeft.y⟩

/-! ## Math: complex numbers, dual numbers, dual complex numbers -/

namespace Math

/-- Modelled from the spec: "Complex number (engine sense): pair
(real, imaginary) used to represent 2D rotations when unit-length"
(src/Math/Complex.h is not part of the excerpt). -/
structure Complex where
  real : ℚ
  imaginary : ℚ
deriving DecidableEq

/-- Modelled from the spec: complex conjugation ("conjugate (complex)" in
§4.1) negates the imaginary part, the standard meaning for the engine's
2D-rotation complex numbers (src/Math/Complex.h is not part of the excerpt). -/
def Complex.conjugated (c : Complex) : Complex := ⟨c.real, -c.imaginary⟩

/-- Modelled from the spec: `c₀ · c_ε` in §4.1's formula
`|c|² = c₀·c₀ + ε·2(c₀·c_dual)` is the 2D dot product of the two complex
numbers viewed as vectors (src/Math/Complex.h is not part of the excerpt). -/
def Complex.dot (a b : Complex) : ℚ := a.real * b.real + a.imaginary * b.imaginary

/-- Source `this->real().dot()`: dot product of a complex number with itself. -/
def Complex.dotSelf (c : Complex) : ℚ := Complex.dot c c

instance : Neg Complex := ⟨fun c => ⟨-c.real, -c.imaginary⟩⟩

/-- Dual number over a component type (Magnum::Math::Dual). -/
structure Dual (R : Type) where
  real : R
  dual : R
deriving DecidableEq

/-- Modelled from the spec: "Dual number: algebraic pair (real, infinitesimal)
supporting a conjugation that negates only the infinitesimal part"
(src/Math/Dual.h is not part of the excerpt). -/
def Dual.conjugated {R : Type} [Neg R] (d : Dual R) : Dual R := ⟨d.real, -d.dual⟩

/-- `DualComplex<T> = Dual<Complex<T>>` (source line 34). -/
abbrev DualComplex := Dual Complex

/-- Source lines 69-71: `{this->real().conjugated(), this->dual().conjugated()}`. -/
def DualComplex.complexConjugated (c : DualComplex) : DualComplex :=
  ⟨c.real.conjugated, c.dual.conjugated⟩

/-- Source lines 81-83: `Dual<Complex<T>>::conjugated()`. -/
def DualComplex.dualConjugated (c : DualComplex) : DualComplex :=
  Dual.conjugated c

/-- Source lines 106-108:
`{this->real().dot(), T(2)*Complex<T>::dot(this->real(), this->dual())}`. -/
def DualComplex.lengthSquared (c : DualComplex) : Dual ℚ :=
  ⟨c.real.dotSelf, 2 * Complex.dot c.real c.dual⟩

end Math

/-! ## Text: glyph layout (TextLayouter, source lines 33-90)

The HarfBuzz shaping engine is the out-of-scope collaborator: a shaped text
is modelled directly as the ordered list of shaper outputs
`{codepoint, x/y offset, x/y advance}` (hb_glyph_info_t / hb_glyph_position_t,
offsets and advances in 1/64-pixel fixed point, as 32-bit signed integers). -/

namespace Text

/-- One shaped glyph as returned by the shaping engine. -/
structure ShapedGlyph where
  codepoint : ℕ
  xOffset : ℤ
  yOffset : ℤ
  xAdvance : ℤ
  yAdvance : ℤ
deriving DecidableEq

/-- The font/atlas collaborator: a scalar size and a per-codepoint lookup
returning the glyph's quad rectangle and texture-coordinate rectangle
(C++ `font.size()` and `font[codepoint]`). -/
structure Font where
  size : ℚ
  lookup : ℕ → Rectangle × Rectangle

/-- `glyphInfo[i]` / `glyphPositions[i]`: the i-th shaped glyph (the C++
indexes into the shaper's arrays; out-of-range access never occurs in the
renderers, the default is arbitrary). -/
def glyphAt (glyphs : List ShapedGlyph) (i : ℕ) : ShapedGlyph :=
  glyphs.getD i ⟨0, 0, 0, 0, 0⟩

/-- `TextLayouter::renderGlyph(cursorPosition, i)`, source lines 72-90. -/
def TextLayouter.renderGlyph (font : Font) (sz : ℚ) (glyphs : List ShapedGlyph)
    (cursorPosition : Vector2) (i : ℕ) : Rectangle × Rectangle × Vector2 :=
  let gi := glyphAt glyphs i
  let texturePosition := (font.lookup gi.codepoint).1
  let textureCoordinates := (font.lookup gi.codepoint).2
  let offset : Vector2 := (⟨(gi.xOffset : ℚ), (gi.yOffset : ℚ)⟩ : Vector2) / (64 * font.size)
  let advance : Vector2 := (⟨(gi.xAdvance : ℚ), (gi.yAdvance : ℚ)⟩ : Vector2) / (64 * font.size)
  let quadPosition := Rectangle.fromSize
    ((cursorPosition + offset + ⟨texturePosition.left, texturePosition.bottom⟩) * sz)
    (texturePosition.size * sz)
  (quadPosition, textureCoordinates, advance)

/-- The common per-glyph loop of all three render entry points (source lines
142-163, 188-203, 307-326): iterate the glyphs in shaping order, calling
`renderGlyph` at the running cursor position and advancing the cursor by the
returned advance after each glyph.  The result is the ordered list of
`(quadPosition, textureCoordinates, advance)` tuples.  The counter `n` is the
number of glyphs still to process and `i` the index of the next one. -/
def renderLoopAux (font : Font) (sz : ℚ) (glyphs : List ShapedGlyph) :
    ℕ → ℕ → Vector2 → List (Rectangle × Rectangle × Vector2)
  | 0, _, _ => []
  | n + 1, i, cursorPosition =>
    let t := TextLayouter.renderGlyph font sz glyphs cursorPosition i
    t :: renderLoopAux font sz glyphs n (i + 1) (cursorPosition + t.2.2)

/-- The full glyph loop over a shaped text, starting from cursor `(0, 0)`. -/
def renderLoop (font : Font) (sz : ℚ) (glyphs : List ShapedGlyph) :
    List (Rectangle × Rectangle × Vector2) :=
  renderLoopAux font sz glyphs glyphs.length 0 0

/-! ### Spec-side layout formulas (§4.2 of the spec), for refinement claims -/

/-- Spec formula: `offset = (shaper x/y offset) / (64 · fontSize)`. -/
def specOffset (font : Font) (g : ShapedGlyph) : Vector2 :=
  (⟨(g.xOffset : ℚ), (g.yOffset : ℚ)⟩ : Vector2) / (64 * font.size)

/-- Spec formula: `advance = (shaper x/y advance) / (64 · fontSize)`. -/
def specAdvance (font : Font) (g : ShapedGlyph) : Vector2 :=
  (⟨(g.xAdvance : ℚ), (g.yAdvance : ℚ)⟩ : Vector2) / (64 * font.size)

/-- Spec formula: the cursor position used for glyph `i` is the sum of the
advances of glyphs `0 .. i-1`, starting from the zero vector. -/
def specCursor (font : Font) (glyphs : List ShapedGlyph) (i : ℕ) : Vector2 :=
  ∑ j ∈ Finset.range i, specAdvance font (glyphAt glyphs j)

/-- Spec formula: the on-screen quad of glyph `i`:
`((cursor + offset + quadRect.bottomLeft) · renderSize, quadRect.size · renderSize)`. -/
def specQuad (font : Font) (sz : ℚ) (glyphs : List ShapedGlyph) (i : ℕ) : Rectangle :=
  Rectangle.fromSize
    ((specCursor font glyphs i + specOffset font (glyphAt glyphs i) +
      ⟨(font.lookup (glyphAt glyphs i).codepoint).1.left,
       (font.lookup (glyphAt glyphs i).codepoint).1.bottom⟩) * sz)
    ((font.lookup (glyphAt glyphs i).codepoint).1.size * sz)

/-! ### Index generation (`createIndices<T>`, source lines 92-110)

`createIndices<T>` is instantiated at T = GLubyte, GLushort, GLuint and
std::uint32_t; the Lean embedding takes the bit width `w` of T and reduces
modulo `2^w` exactly where the C++ narrows to T: at `const T vertex = i*4`,
at `const T pos = i*6`, and when each value `vertex + k` (computed in int)
is stored back into a T element. -/

/-- The six index values `createIndices<T>` stores for glyph `i`
(`vertex, vertex+1, vertex+2, vertex+1, vertex+3, vertex+2` with
`vertex = T(i*4)`, each store narrowing to T). -/
def glyphQuadIndices (w i : ℕ) : List ℕ :=
  [(i * 4) % 2 ^ w,
   ((i * 4) % 2 ^ w + 1) % 2 ^ w,
   ((i * 4) % 2 ^ w + 2) % 2 ^ w,
   ((i * 4) % 2 ^ w + 1) % 2 ^ w,
   ((i * 4) % 2 ^ w + 3) % 2 ^ w,
   ((i * 4) % 2 ^ w + 2) % 2 ^ w]

/-- One iteration of the `createIndices` loop: write the six indices of glyph
`i` at positions `pos .. pos+5` with `pos = T(i*6)` (the positions `pos+k`
are computed in wider arithmetic, so only `pos` itself narrows). -/
def writeQuadAt (w i : ℕ) (out : List ℕ) : List ℕ :=
  (((((out.set ((i * 6) % 2 ^ w) ((glyphQuadIndices w i).getD 0 0)).set
      ((i * 6) % 2 ^ w + 1) ((glyphQuadIndices w i).getD 1 0)).set
      ((i * 6) % 2 ^ w + 2) ((glyphQuadIndices w i).getD 2 0)).set
      ((i * 6) % 2 ^ w + 3) ((glyphQuadIndices w i).getD 3 0)).set
      ((i * 6) % 2 ^ w + 4) ((glyphQuadIndices w i).getD 4 0)).set
      ((i * 6) % 2 ^ w + 5) ((glyphQuadIndices w i).getD 5 0)

/-- `createIndices<T>(output, glyphCount)` over a buffer `out`, `w` the bit
width of T. -/
def createIndices (w glyphCount : ℕ) (out : List ℕ) : List ℕ :=
  (List.range glyphCount).foldl (fun b i => writeQuadAt w i b) out

/-! ### Index type selection and mesh data (source lines 207-225, 271-282) -/

/-- Mesh::IndexType. -/
inductive IndexType where
  | UnsignedByte
  | UnsignedShort
  | UnsignedInt
deriving DecidableEq

/-- Bit width of the index element type. -/
def IndexType.bitWidth : IndexType → ℕ
  | .UnsignedByte => 8
  | .UnsignedShort => 16
  | .UnsignedInt => 32

/-- The index-type selection chain shared verbatim by the GPU-buffer render
variant (lines 210-225) and by `reserve` (lines 273-282):
`vertexCount < 255` picks UnsignedByte, else `vertexCount < 65535` picks
UnsignedShort, else UnsignedInt. -/
def indexTypeFor (vertexCount : ℕ) : IndexType :=
  if vertexCount < 255 then .UnsignedByte
  else if vertexCount < 65535 then .UnsignedShort
  else .UnsignedInt

/-- The index-buffer allocation size in bytes from the same chains:
`indexCount*sizeof(GLushort)` in both the UnsignedByte and UnsignedShort
branches, `indexCount*sizeof(GLuint)` in the UnsignedInt branch. -/
def indicesSizeFor (vertexCount indexCount : ℕ) : ℕ :=
  if vertexCount < 255 then indexCount * 2
  else if vertexCount < 65535 then indexCount * 2
  else indexCount * 4

/-- Spec-side rule (data-model section): "stored at the narrowest integer
width that represents `vertexCount - 1`" — the narrowest of the three
available widths whose range contains a given value `m` (defaulting to 32
bits when even that cannot represent it). -/
def narrowestRepWidth (m : ℕ) : ℕ :=
  if m < 2 ^ 8 then 8
  else if m < 2 ^ 16 then 16
  else 32

/-- One interleaved vertex record (`Vertex<dimensions>`, source lines
122-125): a homogeneous position of the dimension-specific point type and a
texture coordinate. -/
structure Vertex (P : Type) where
  position : P
  texcoords : Vector2
deriving DecidableEq

/-- `Point2D`: `swizzle<'x','y','1'>` embedding target (source line 114). -/
structure Point2D where
  x : ℚ
  y : ℚ
  w : ℚ
deriving DecidableEq

/-- `point<2>(vec) = (vec.x, vec.y, 1)`. -/
def point2 (v : Vector2) : Point2D := ⟨v.x, v.y, 1⟩

def Point2D.xy (p : Point2D) : Vector2 := ⟨p.x, p.y⟩

instance : Inhabited Point2D := ⟨⟨0, 0, 0⟩⟩

/-- `Point3D`: `swizzle<'x','y','0','1'>` embedding target (source line 118). -/
structure Point3D where
  x : ℚ
  y : ℚ
  z : ℚ
  w : ℚ
deriving DecidableEq

/-- `point<3>(vec) = (vec.x, vec.y, 0, 1)`. -/
def point3 (v : Vector2) : Point3D := ⟨v.x, v.y, 0, 1⟩

def Point3D.xy (p : Point3D) : Vector2 := ⟨p.x, p.y⟩

instance : Inhabited Point3D := ⟨⟨0, 0, 0, 0⟩⟩

/-! ### TextRenderer (source lines 129-334)

The two compile-time instantiations `TextRenderer<2>` / `TextRenderer<3>`
are embedded by parameterising over the point type `P` together with the
dimension-specific embedding `emb` (C++ `point<dimensions>`) and projection
`xy` (C++ `.xy()`). -/

namespace TextRenderer

/-- The corner order every render variant emits for one glyph quad:
top-left, bottom-left, top-right, bottom-right. -/
def quadCorners (r : Rectangle) : List Vector2 :=
  [r.topLeft, r.bottomLeft, r.topRight, r.bottomRight]

/-- The array-producing static render variant
(`TextRenderer::render(font, size, text)`, source lines 129-174): returns
`(positions, texcoords, indices, rectangle)`. -/
def render {P : Type} (emb : Vector2 → P) (xy : P → Vector2) (font : Font)
    (sz : ℚ) (glyphs : List ShapedGlyph) :
    List P × List Vector2 × List ℕ × Rectangle :=
  let ts := renderLoop font sz glyphs
  let positions := ts.flatMap (fun t => (quadCorners t.1).map emb)
  let texcoords := ts.flatMap (fun t => quadCorners t.2.1)
  let indices := createIndices 32 glyphs.length
    (List.replicate ((glyphs.length * 6) % 2 ^ 32) 0)
  let rectangle : Rectangle :=
    if glyphs.length ≠ 0 then
      ⟨xy (positions.getD 1 (emb 0)),
       xy (positions.getD (positions.length - 2) (emb 0))⟩
    else ⟨0, 0⟩
  (positions, texcoords, indices, rectangle)

/-- Result of the GPU-buffer static render variant: the buffer contents it
uploads and the mesh configuration it returns. -/
structure MeshData (P : Type) where
  vertices : List (Vertex P)
  indexType : IndexType
  indicesSize : ℕ
  indexData : List ℕ
  meshIndexCount : ℕ
  rectangle : Rectangle
deriving DecidableEq

/-- The GPU-buffer static render variant
(`TextRenderer::render(font, size, text, vertexBuffer, indexBuffer, usage)`,
source lines 176-243).  The freshly `new`-allocated index scratch memory is
modelled as zero-filled; its element count is the allocated byte size divided
by the element size of the chosen index type. -/
def renderBuffers {P : Type} (emb : Vector2 → P) (xy : P → Vector2)
    (font : Font) (sz : ℚ) (glyphs : List ShapedGlyph) : MeshData P :=
  let ts := renderLoop font sz glyphs
  let vertices := ts.flatMap (fun t =>
    (List.zip (quadCorners t.1) (quadCorners t.2.1)).map
      (fun c => Vertex.mk (emb c.1) c.2))
  let vertexCount := (glyphs.length * 4) % 2 ^ 32
  let indexCount := (glyphs.length * 6) % 2 ^ 32
  let indexType := indexTypeFor vertexCount
  let indicesSize := indicesSizeFor vertexCount indexCount
  let indexData := createIndices indexType.bitWidth glyphs.length
    (List.replicate (indicesSize / (indexType.bitWidth / 8)) 0)
  let rectangle : Rectangle :=
    if glyphs.length ≠ 0 then
      ⟨xy ((vertices.getD 1 (Vertex.mk (emb 0) 0)).position),
       xy ((vertices.getD (vertices.length - 2) (Vertex.mk (emb 0) 0)).position)⟩
    else ⟨0, 0⟩
  { vertices := vertices
    indexType := indexType
    indicesSize := indicesSize
    indexData := indexData
    meshIndexCount := indexCount
    rectangle := rectangle }

/-- The state of the incremental renderer (`TextRenderer<dimensions>` members
`_capacity`, `vertexBuffer`, `indexBuffer`, `_mesh`, `_rectangle`). -/
structure State (P : Type) where
  capacity : ℕ
  vertexData : List (Vertex P)
  indexType : IndexType
  indicesSize : ℕ
  indexData : List ℕ
  meshVertexCount : ℕ
  meshIndexCount : ℕ
  rectangle : Rectangle
deriving DecidableEq

/-- Constructor state (source lines 245-258): zero capacity, empty buffers,
default mesh counters and rectangle. -/
def initial {P : Type} : State P :=
  { capacity := 0
    vertexData := []
    indexType := .UnsignedByte
    indicesSize := 0
    indexData := []
    meshVertexCount := 0
    meshIndexCount := 0
    rectangle := ⟨0, 0⟩ }

/-- `TextRenderer::reserve(glyphCount, vertexBufferUsage, indexBufferUsage)`
(source lines 260-296): reallocate both buffers, reset the mesh counts,
select the index type by the three-tier rule, and prefill the whole index
buffer with `createIndices` at that element width.  Freshly allocated buffer
storage (`setData(..., nullptr)` / the invalidated mapping) is modelled as
default/zero-filled; `_rectangle` is untouched. -/
def reserve {P : Type} [Inhabited P] (glyphCount : ℕ) (st : State P) : State P :=
  let vertexCount := (glyphCount * 4) % 2 ^ 32
  let indexCount := (glyphCount * 6) % 2 ^ 32
  let indexType := indexTypeFor vertexCount
  let indicesSize := indicesSizeFor vertexCount indexCount
  { capacity := glyphCount
    vertexData := List.replicate vertexCount (Vertex.mk default 0)
    indexType := indexType
    indicesSize := indicesSize
    indexData := createIndices indexType.bitWidth glyphCount
      (List.replicate (indicesSize / (indexType.bitWidth / 8)) 0)
    meshVertexCount := 0
    meshIndexCount := 0
    rectangle := st.rectangle }

/-- `TextRenderer::render(text)` (source lines 298-331).  On a failed
capacity check (`CORRADE_ASSERT`) the call returns without touching any
state: result `(false, st)`.  Otherwise it overwrites the mapped region of
the vertex buffer (the first `glyphCount*4` records) in glyph order, updates
`_rectangle.bottomLeft` from glyph 0 (`i == 0`) or else
`_rectangle.topRight` from the last glyph (`else if i == glyphCount-1`),
and finally sets the mesh's active index count to `glyphCount*6`; the index
buffer is never touched. -/
def renderText {P : Type} (emb : Vector2 → P) (font : Font) (sz : ℚ)
    (glyphs : List ShapedGlyph) (st : State P) : Bool × State P :=
  if glyphs.length ≤ st.capacity then
    let ts := renderLoop font sz glyphs
    let newVertices := ts.flatMap (fun t =>
      (List.zip (quadCorners t.1) (quadCorners t.2.1)).map
        (fun c => Vertex.mk (emb c.1) c.2))
    let rect := ts.enum.foldl (fun r ti =>
      if ti.1 = 0 then { r with bottomLeft := ti.2.1.bottomLeft }
      else if ti.1 = glyphs.length - 1 then { r with topRight := ti.2.1.topRight }
      else r) st.rectangle
    (true,
      { st with
        vertexData := newVertices ++ st.vertexData.drop (glyphs.length * 4)
        rectangle := rect
        meshIndexCount := (glyphs.length * 6) % 2 ^ 32 })
  else (false, st)

end TextRenderer

/-! ### Concrete sample inputs used by witnesses and counterexamples -/

/-- A one-pixel font whose every glyph has the unit square as quad and
texture rectangle. -/
def sampleFont : Font :=
  ⟨1, fun _ => (⟨⟨0, 0⟩, ⟨1, 1⟩⟩, ⟨⟨0, 0⟩, ⟨1, 1⟩⟩)⟩

/-- A shaped glyph with zero offset and advance `(1, 0)` (64 in the shaper's
1/64-pixel fixed point at font size 1). -/
def sampleGlyph : ShapedGlyph := ⟨0, 0, 0, 64, 0⟩

/-! ## Helper lemmas -/

theorem Vector2.add_def (a b : Vector2) : a + b = ⟨a.x + b.x, a.y + b.y⟩ := rfl

theorem Vector2.zero_def : (0 : Vector2) = ⟨0, 0⟩ := rfl

theorem Vector2.sub_def (a b : Vector2) : a - b = ⟨a.x - b.x, a.y - b.y⟩ := rfl

theorem Vector2.hmul_def (a : Vector2) (s : ℚ) : a * s = ⟨a.x * s, a.y * s⟩ := rfl

theorem Vector2.hdiv_def (a : Vector2) (s : ℚ) : a / s = ⟨a.x / s, a.y / s⟩ := rfl

/-- The advance returned by `renderGlyph` is the spec's
`(shaper x/y advance) / (64 · fontSize)`, independent of the cursor. -/
theorem renderGlyph_advance (font : Font) (sz : ℚ) (glyphs : List ShapedGlyph)
    (c : Vector2) (i : ℕ) :
    (TextLayouter.renderGlyph font sz glyphs c i).2.2 =
      specAdvance font (glyphAt glyphs i) := rfl

/-- `renderGlyph` computes exactly the spec's per-glyph formulas. -/
theorem renderGlyph_eq_spec (font : Font) (sz : ℚ) (glyphs : List ShapedGlyph)
    (c : Vector2) (i : ℕ) :
    TextLayouter.renderGlyph font sz glyphs c i =
      (Rectangle.fromSize
        ((c + specOffset font (glyphAt glyphs i) +
          ⟨(font.lookup (glyphAt glyphs i).codepoint).1.left,
           (font.lookup (glyphAt glyphs i).codepoint).1.bottom⟩) * sz)
        ((font.lookup (glyphAt glyphs i).codepoint).1.size * sz),
       (font.lookup (glyphAt glyphs i).codepoint).2,
       specAdvance font (glyphAt glyphs i)) := rfl

/-- `renderGlyph` evaluated at the spec's cursor yields the spec's quad. -/
theorem renderGlyph_specCursor (font : Font) (sz : ℚ) (glyphs : List ShapedGlyph)
    (i : ℕ) :
    (TextLayouter.renderGlyph font sz glyphs (specCursor font glyphs i) i).1 =
      specQuad font sz glyphs i := rfl

/-- The glyph loop unrolled: the `k`-th processed glyph is rendered at the
cursor obtained by adding the advances of the glyphs processed before it. -/
theorem renderLoopAux_eq_map (font : Font) (sz : ℚ) (glyphs : List ShapedGlyph) :
    ∀ (n i : ℕ) (c : Vector2),
    renderLoopAux font sz glyphs n i c =
      (List.range n).map (fun k =>
        TextLayouter.renderGlyph font sz glyphs
          (c + ∑ j ∈ Finset.range k, specAdvance font (glyphAt glyphs (i + j)))
          (i + k)) := by
  intro n
  induction n with
  | zero => intro i c; rfl
  | succ n ih =>
    intro i c
    rw [renderLoopAux, List.range_succ_eq_map, List.map_cons, List.map_map]
    refine congrArg₂ List.cons ?_ ?_
    · simp
    · rw [renderGlyph_advance, ih]
      apply List.map_congr_left
      intro k hk
      simp only [Function.comp_apply]
      congr 1
      · rw [Finset.sum_range_succ']
        simp only [Nat.add_zero, Nat.add_succ, Nat.succ_add]
        abel
      · omega

/-- The full glyph loop, characterised: entry `k` is `renderGlyph` at the
spec cursor (prefix sum of advances). -/
theorem renderLoop_eq_map (font : Font) (sz : ℚ) (glyphs : List ShapedGlyph) :
    renderLoop font sz glyphs =
      (List.range glyphs.length).map (fun k =>
        TextLayouter.renderGlyph font sz glyphs (specCursor font glyphs k) k) := by
  rw [renderLoop, renderLoopAux_eq_map]
  apply List.map_congr_left
  intro k hk
  simp [specCursor]

/-- `getD` on an append, index inside the left part. -/
theorem getD_append_lt {α : Type} (A B : List α) (n : ℕ) (d : α)
    (h : n < A.length) : (A ++ B).getD n d = A.getD n d := by
  induction A generalizing n with
  | nil => simp at h
  | cons a tl ih =>
    cases n with
    | zero => rfl
    | succ n => simpa using ih n (by simpa using h)

/-- `getD` on an append, index past the left part. -/
theorem getD_append_ge {α : Type} (A B : List α) (n : ℕ) (d : α) :
    (A ++ B).getD (A.length + n) d = B.getD n d := by
  induction A with
  | nil => simp
  | cons a tl ih => simpa [Nat.succ_add] using ih

/-- `flatMap` with constant block length: total length. -/
theorem flatMap_const_length {α β : Type} (f : α → List β) (cLen : ℕ)
    (hc : ∀ a, (f a).length = cLen) :
    ∀ l : List α, (l.flatMap f).length = cLen * l.length := by
  intro l
  induction l with
  | nil => simp
  | cons a tl ih =>
    rw [List.flatMap_cons, List.length_append, ih, hc, List.length_cons]
    ring

/-- `getD` into a `flatMap` with constant block length `cLen`: position
`cLen*i + r` reads entry `r` of block `i`. -/
theorem flatMap_blocks_getD {α β : Type} (f : α → List β) (cLen : ℕ)
    (hc : ∀ a, (f a).length = cLen) :
    ∀ (l : List α) (i r : ℕ) (d : β) (da : α), i < l.length → r < cLen →
    (l.flatMap f).getD (cLen * i + r) d = (f (l.getD i da)).getD r d := by
  intro l
  induction l with
  | nil => intro i r d da hi hr; simp at hi
  | cons a tl ih =>
    intro i r d da hi hr
    rw [List.flatMap_cons]
    cases i with
    | zero =>
      rw [Nat.mul_zero, Nat.zero_add, getD_append_lt _ _ _ _ (by rw [hc]; exact hr)]
      rfl
    | succ i =>
      have hidx : cLen * (i + 1) + r = (f a).length + (cLen * i + r) := by
        rw [hc]; ring
      rw [hidx, getD_append_ge]
      exact ih i r d da (by simpa using hi) hr

/-- Six successive `set`s at positions 0..5 of a list of length at least 6. -/
theorem set_chain6 {α : Type} (B : List α) (h : 6 ≤ B.length)
    (v0 v1 v2 v3 v4 v5 : α) :
    (((((B.set 0 v0).set 1 v1).set 2 v2).set 3 v3).set 4 v4).set 5 v5 =
      [v0, v1, v2, v3, v4, v5] ++ B.drop 6 := by
  match B with
  | b0 :: b1 :: b2 :: b3 :: b4 :: b5 :: rest => rfl
  | [] | [_] | [_, _] | [_, _, _] | [_, _, _, _] | [_, _, _, _, _] => simp at h

/-- One `createIndices` iteration over a buffer whose first `6*i` entries are
already filled: when `i*6` does not wrap in the narrowed position type, the
iteration appends the six indices of glyph `i` right after the prefix. -/
theorem writeQuadAt_append (w i : ℕ) (A B : List ℕ) (hA : A.length = 6 * i)
    (hw : i * 6 < 2 ^ w) (hB : 6 ≤ B.length) :
    writeQuadAt w i (A ++ B) = A ++ (glyphQuadIndices w i ++ B.drop 6) := by
  have hpos : (i * 6) % 2 ^ w = i * 6 := Nat.mod_eq_of_lt hw
  have e : ∀ (X : List ℕ) (k : ℕ) (v : ℕ),
      (A ++ X).set (i * 6 + k) v = A ++ X.set k v := by
    intro X k v
    rw [@List.set_append_right ℕ A X (i * 6 + k) v (by omega)]
    have hk : i * 6 + k - A.length = k := by omega
    rw [hk]
  have e0 : ∀ (X : List ℕ) (v : ℕ), (A ++ X).set (i * 6) v = A ++ X.set 0 v := by
    intro X v
    rw [@List.set_append_right ℕ A X (i * 6) v (by omega)]
    have hk : i * 6 - A.length = 0 := by omega
    rw [hk]
  unfold writeQuadAt
  rw [hpos, e0, e, e, e, e, e, set_chain6 _ hB]
  rfl

/-- `createIndices` preserves the buffer length. -/
theorem createIndices_length (w g : ℕ) (out : List ℕ) :
    (createIndices w g out).length = out.length := by
  unfold createIndices
  induction List.range g generalizing out with
  | nil => rfl
  | cons a tl ih =>
    rw [List.foldl_cons, ih]
    simp [writeQuadAt]

/-- Characterisation of `createIndices` when neither positions nor the
buffer overflow: the buffer's first `g*6` entries become the concatenated
per-glyph index blocks and the rest is untouched. -/
theorem createIndices_eq (w : ℕ) :
    ∀ (g : ℕ) (out : List ℕ), g * 6 ≤ 2 ^ w → g * 6 ≤ out.length →
    createIndices w g out =
      (List.range g).flatMap (fun i => glyphQuadIndices w i) ++ out.drop (g * 6) := by
  intro g
  induction g with
  | zero => intro out h1 h2; simp [createIndices]
  | succ g ih =>
    intro out h1 h2
    have step : createIndices w (g + 1) out =
        writeQuadAt w g (createIndices w g out) := by
      unfold createIndices
      rw [List.range_succ, List.foldl_append, List.foldl_cons, List.foldl_nil]
    have hlen : ((List.range g).flatMap (fun i => glyphQuadIndices w i)).length
        = 6 * g := by
      rw [flatMap_const_length (fun i => glyphQuadIndices w i) 6 (fun a => rfl),
        List.length_range]
    rw [step, ih out (by omega) (by omega),
      writeQuadAt_append w g _ _ hlen (by omega)
        (by rw [List.length_drop]; omega)]
    rw [List.range_succ, List.flatMap_append, List.flatMap_cons, List.flatMap_nil,
      List.append_nil, List.append_assoc, List.drop_drop]
    have : g * 6 + 6 = (g + 1) * 6 := by ring
    rw [this]

/-- Every element of a `createIndices` result is either an untouched buffer
element or one of the six index values of some glyph `i < g`. -/
theorem mem_createIndices (w : ℕ) :
    ∀ (g : ℕ) (out : List ℕ) (v : ℕ), v ∈ createIndices w g out →
    v ∈ out ∨ ∃ i, i < g ∧ v ∈ glyphQuadIndices w i := by
  intro g
  induction g with
  | zero => intro out v h; exact Or.inl h
  | succ g ih =>
    intro out v h
    have step : createIndices w (g + 1) out =
        writeQuadAt w g (createIndices w g out) := by
      unfold createIndices
      rw [List.range_succ, List.foldl_append, List.foldl_cons, List.foldl_nil]
    rw [step] at h
    have peel : ∀ (X : List ℕ), v ∈ writeQuadAt w g X →
        v ∈ X ∨ v ∈ glyphQuadIndices w g := by
      intro X hv
      unfold writeQuadAt at hv
      rcases List.mem_or_eq_of_mem_set hv with hv | rfl
      · rcases List.mem_or_eq_of_mem_set hv with hv | rfl
        · rcases List.mem_or_eq_of_mem_set hv with hv | rfl
          · rcases List.mem_or_eq_of_mem_set hv with hv | rfl
            · rcases List.mem_or_eq_of_mem_set hv with hv | rfl
              · rcases List.mem_or_eq_of_mem_set hv with hv | rfl
                · exact Or.inl hv
                · exact Or.inr (by simp [glyphQuadIndices])
              · exact Or.inr (by simp [glyphQuadIndices])
            · exact Or.inr (by simp [glyphQuadIndices])
          · exact Or.inr (by simp [glyphQuadIndices])
        · exact Or.inr (by simp [glyphQuadIndices])
      · exact Or.inr (by simp [glyphQuadIndices])
    rcases peel _ h with hv | hv
    · rcases ih out v hv with h' | ⟨i, hi, hmem⟩
      · exact Or.inl h'
      · exact Or.inr ⟨i, by omega, hmem⟩
    · exact Or.inr ⟨g, by omega, hv⟩

/-- `flatMap` congruence on the traversed list. -/
theorem flatMap_congr_left {α β : Type} (l : List α) (f g : α → List β)
    (h : ∀ a ∈ l, f a = g a) : l.flatMap f = l.flatMap g := by
  rw [List.flatMap_def, List.flatMap_def, List.map_congr_left h]

/-- `getD` into `List.range`. -/
theorem range_getD (n i : ℕ) (h : i < n) : (List.range n).getD i 0 = i := by
  rw [List.getD_eq_getElem?_getD, List.getElem?_eq_getElem (by simpa using h)]
  simp

/-- When the six index values of glyph `i` fit in the element width, they
are the untruncated `i*4 + {0,1,2,1,3,2}`. -/
theorem glyphQuadIndices_eval (w i : ℕ) (h : i * 4 + 3 < 2 ^ w) :
    glyphQuadIndices w i =
      [i * 4, i * 4 + 1, i * 4 + 2, i * 4 + 1, i * 4 + 3, i * 4 + 2] := by
  have e0 : i * 4 % 2 ^ w = i * 4 := Nat.mod_eq_of_lt (by omega)
  unfold glyphQuadIndices
  rw [e0, Nat.mod_eq_of_lt (by omega), Nat.mod_eq_of_lt (by omega),
    Nat.mod_eq_of_lt (by omega)]

/-- The glyph loop produces one tuple per shaped glyph. -/
theorem renderLoop_length (font : Font) (sz : ℚ) (glyphs : List ShapedGlyph) :
    (renderLoop font sz glyphs).length = glyphs.length := by
  rw [renderLoop_eq_map, List.length_map, List.length_range]

/-- The positions the array-producing render variant emits: for each glyph
`i` in order, the four corners of the spec quad (at the prefix-sum cursor),
in the fixed top-left, bottom-left, top-right, bottom-right order. -/
theorem render_positions_eq {P : Type} (emb : Vector2 → P) (xy : P → Vector2)
    (font : Font) (sz : ℚ) (glyphs : List ShapedGlyph) :
    (TextRenderer.render emb xy font sz glyphs).1 =
      (List.range glyphs.length).flatMap
        (fun i => (TextRenderer.quadCorners (specQuad font sz glyphs i)).map emb) := by
  show ((renderLoop font sz glyphs).flatMap fun t => (TextRenderer.quadCorners t.1).map emb) = _
  rw [renderLoop_eq_map, List.flatMap_map]
  rfl

/-- The texture coordinates the array-producing render variant emits. -/
theorem render_texcoords_eq {P : Type} (emb : Vector2 → P) (xy : P → Vector2)
    (font : Font) (sz : ℚ) (glyphs : List ShapedGlyph) :
    (TextRenderer.render emb xy font sz glyphs).2.1 =
      (List.range glyphs.length).flatMap
        (fun i => TextRenderer.quadCorners
          (font.lookup (glyphAt glyphs i).codepoint).2) := by
  show ((renderLoop font sz glyphs).flatMap fun t => TextRenderer.quadCorners t.2.1) = _
  rw [renderLoop_eq_map, List.flatMap_map]
  rfl

end Text

/-! ## Claim theorems -/

open Text

/-- Claim C8: for every dual complex number `c`, `complexConjugated` and
`dualConjugated` are involutions. -/
theorem C8_conjugation_involutions :
    ∀ c : Math.DualComplex,
      (c.complexConjugated).complexConjugated = c ∧
      (c.dualConjugated).dualConjugated = c := by
  rintro ⟨⟨a, b⟩, ⟨d, e⟩⟩
  constructor
  · simp [Math.DualComplex.complexConjugated, Math.Complex.conjugated]
  · simp only [Math.DualComplex.dualConjugated, Math.Dual.conjugated]
    congr 1
    show - -(⟨d, e⟩ : Math.Complex) = ⟨d, e⟩
    show ⟨- -d, - -e⟩ = (⟨d, e⟩ : Math.Complex)
    simp

/-- Claim C9: `lengthSquared(c)` is the dual number with real part
`dot(c.real, c.real)` and infinitesimal part `2 * dot(c.real, c.dual)`; at
the literal `c = DualComplex({1,0},{0,0})` it equals `{1, 0}` exactly. -/
theorem C9_lengthSquared_formula :
    (∀ c : Math.DualComplex,
      (c.lengthSquared).real = Math.Complex.dot c.real c.real ∧
      (c.lengthSquared).dual = 2 * Math.Complex.dot c.real c.dual) ∧
    Math.DualComplex.lengthSquared ⟨⟨1, 0⟩, ⟨0, 0⟩⟩ = ⟨1, 0⟩ := by
  refine ⟨fun c => ⟨rfl, rfl⟩, ?_⟩
  simp only [Math.DualComplex.lengthSquared, Math.Complex.dotSelf, Math.Complex.dot]
  norm_num

/-- Claim C3: the index-type selection rule (shared by the GPU-buffer render
variant and `reserve`) maps vertex counts 254, 255, 65534, 65535 to
UnsignedByte, UnsignedShort, UnsignedShort, UnsignedInt respectively;
vertex counts below 255 select 8-bit indices with the allocation still sized
`indexCount*sizeof(GLushort)` bytes, below 65535 select 16-bit, anything
larger selects 32-bit; and both call sites use exactly this rule. -/
theorem C3_index_type_thresholds :
    (indexTypeFor 254 = .UnsignedByte ∧ indexTypeFor 255 = .UnsignedShort ∧
     indexTypeFor 65534 = .UnsignedShort ∧ indexTypeFor 65535 = .UnsignedInt) ∧
    (∀ v ic : ℕ, v < 255 →
      indexTypeFor v = .UnsignedByte ∧ indicesSizeFor v ic = ic * 2) ∧
    (∀ v ic : ℕ, 255 ≤ v → v < 65535 →
      indexTypeFor v = .UnsignedShort ∧ indicesSizeFor v ic = ic * 2) ∧
    (∀ v ic : ℕ, 65535 ≤ v →
      indexTypeFor v = .UnsignedInt ∧ indicesSizeFor v ic = ic * 4) ∧
    (∀ (P : Type) [Inhabited P] (g : ℕ) (st : TextRenderer.State P),
      (TextRenderer.reserve g st).indexType = indexTypeFor ((g * 4) % 2 ^ 32)) ∧
    (∀ (P : Type) (emb : Vector2 → P) (xy : P → Vector2) (font : Font) (sz : ℚ)
      (glyphs : List ShapedGlyph),
      (TextRenderer.renderBuffers emb xy font sz glyphs).indexType =
        indexTypeFor ((glyphs.length * 4) % 2 ^ 32)) := by
  refine ⟨by decide, ?_, ?_, ?_, fun P _ g st => rfl, fun P emb xy font sz glyphs => rfl⟩
  · intro v ic h
    simp [indexTypeFor, indicesSizeFor, h]
  · intro v ic h1 h2
    have h255 : ¬ v < 255 := by omega
    simp [indexTypeFor, indicesSizeFor, h255, h2]
  · intro v ic h
    have h255 : ¬ v < 255 := by omega
    have h65535 : ¬ v < 65535 := by omega
    simp [indexTypeFor, indicesSizeFor, h255, h65535]

/-- Witness for C3 at concrete vertex counts. -/
theorem C3_index_type_thresholds_witness :
    (100 : ℕ) < 255 ∧ (300 : ℕ) ≤ 65535 ∧
    (indexTypeFor 100 = .UnsignedByte ∧ indicesSizeFor 100 6 = 6 * 2) ∧
    (indexTypeFor 70000 = .UnsignedInt ∧ indicesSizeFor 70000 6 = 6 * 4) :=
  ⟨by decide, by decide,
   C3_index_type_thresholds.2.1 100 6 (by decide),
   C3_index_type_thresholds.2.2.2.1 70000 6 (by decide)⟩

/-- Claim C2 counterexample: at glyph count 64 (vertex count 256) the code
selects a 16-bit index type, but the narrowest width representing
`vertexCount - 1 = 255` is 8 bits — the claim's rule fails on the code. -/
theorem C2_narrowest_width_counterexample :
    (TextRenderer.reserve 64 (TextRenderer.initial : TextRenderer.State Point2D)).indexType.bitWidth ≠
      narrowestRepWidth (64 * 4 - 1) ∧
    narrowestRepWidth (64 * 4 - 1) = 8 ∧
    (TextRenderer.reserve 64 (TextRenderer.initial : TextRenderer.State Point2D)).indexType.bitWidth = 16 := by
  refine ⟨?_, by decide, rfl⟩
  intro h
  rw [show narrowestRepWidth (64 * 4 - 1) = 8 by decide] at h
  exact absurd h (by decide)

/-- Claim C2, amended: the index elements of the GPU-buffer render variant
and of `reserve` are stored at the narrowest of the three widths that can
represent `vertexCount + 1` (equivalently, the narrowest width whose maximum
value strictly exceeds `vertexCount`), not `vertexCount - 1`. -/
theorem C2_index_width_amended :
    (∀ v : ℕ, (indexTypeFor v).bitWidth = narrowestRepWidth (v + 1)) ∧
    (∀ (P : Type) [Inhabited P] (g : ℕ) (st : TextRenderer.State P),
      (TextRenderer.reserve g st).indexType.bitWidth =
        narrowestRepWidth ((g * 4) % 2 ^ 32 + 1)) ∧
    (∀ (P : Type) (emb : Vector2 → P) (xy : P → Vector2) (font : Font) (sz : ℚ)
      (glyphs : List ShapedGlyph),
      (TextRenderer.renderBuffers emb xy font sz glyphs).indexType.bitWidth =
        narrowestRepWidth ((glyphs.length * 4) % 2 ^ 32 + 1)) := by
  have core : ∀ v : ℕ, (indexTypeFor v).bitWidth = narrowestRepWidth (v + 1) := by
    intro v
    unfold indexTypeFor narrowestRepWidth
    have h8 : (2 : ℕ) ^ 8 = 256 := by norm_num
    have h16 : (2 : ℕ) ^ 16 = 65536 := by norm_num
    rw [h8, h16]
    rcases Nat.lt_or_ge v 255 with h | h
    · rw [if_pos h, if_pos (by omega)]
      rfl
    · rcases Nat.lt_or_ge v 65535 with h' | h'
      · rw [if_neg (by omega), if_pos h', if_neg (by omega), if_pos (by omega)]
        rfl
      · rw [if_neg (by omega), if_neg (by omega), if_neg (by omega), if_neg (by omega)]
        rfl
  exact ⟨core, fun P _ g st => core _, fun P emb xy font sz glyphs => core _⟩

/-- Claim C10 counterexample: at glyph count 1, `createIndices` writes the
index value 3 (= `4*1 - 1`), which exceeds the claimed bound `4*1 - 2`. -/
theorem C10_index_bound_counterexample :
    ¬ (∀ v ∈ createIndices 32 1 (List.replicate 6 0), v ≤ 4 * 1 - 2) := by
  decide

/-- Claim C10, amended: for every glyph count `g ≥ 1` and element width `w`
with `4*g ≤ 2^w` (which covers both guarded narrow instantiations:
`vertexCount < 255` with `w = 8` and `vertexCount < 65535` with `w = 16`),
every element of the `createIndices` output over a zero-filled buffer is at
most `4*g - 1` and hence strictly below the vertex count `4*g`, and the six
index values computed for each glyph `i < g` are the untruncated
`i*4 + {0,1,2,1,3,2}` — the narrowing conversion to T never truncates. -/
theorem C10_index_values_in_range :
    ∀ (w g n : ℕ), 1 ≤ g → 4 * g ≤ 2 ^ w →
      (∀ v ∈ createIndices w g (List.replicate n 0), v ≤ 4 * g - 1 ∧ v < 4 * g) ∧
      (∀ i, i < g → glyphQuadIndices w i =
        [i * 4, i * 4 + 1, i * 4 + 2, i * 4 + 1, i * 4 + 3, i * 4 + 2]) := by
  intro w g n h1 h2
  have evals : ∀ i, i < g → glyphQuadIndices w i =
      [i * 4, i * 4 + 1, i * 4 + 2, i * 4 + 1, i * 4 + 3, i * 4 + 2] := by
    intro i hi
    have e0 : i * 4 % 2 ^ w = i * 4 := Nat.mod_eq_of_lt (by omega)
    unfold glyphQuadIndices
    rw [e0, Nat.mod_eq_of_lt (by omega), Nat.mod_eq_of_lt (by omega),
      Nat.mod_eq_of_lt (by omega)]
  refine ⟨?_, evals⟩
  intro v hv
  rcases mem_createIndices w g _ v hv with hmem | ⟨i, hi, hmem⟩
  · have hz : v = 0 := List.eq_of_mem_replicate hmem
    omega
  · rw [evals i hi] at hmem
    simp only [List.mem_cons, List.not_mem_nil, or_false] at hmem
    rcases hmem with h | h | h | h | h | h <;> omega

/-- Witness for the amended C10 at `w = 8`, `g = 1` (the UnsignedByte branch
of `reserve`, buffer of `6*2 = 12` byte elements). -/
theorem C10_index_values_in_range_witness :
    (1 : ℕ) ≤ 1 ∧ 4 * 1 ≤ 2 ^ 8 ∧
    ((∀ v ∈ createIndices 8 1 (List.replicate 12 0), v ≤ 4 * 1 - 1 ∧ v < 4 * 1) ∧
     (∀ i, i < 1 → glyphQuadIndices 8 i =
       [i * 4, i * 4 + 1, i * 4 + 2, i * 4 + 1, i * 4 + 3, i * 4 + 2])) :=
  ⟨by decide, by decide, C10_index_values_in_range 8 1 12 (by decide) (by decide)⟩

/-- Claim C4: when the shaped glyph count exceeds the reserved capacity,
`render(text)` fails the capacity check and leaves the whole renderer state
untouched; the renderer stays usable for a subsequent within-capacity
render. -/
theorem C4_capacity_exceeded_state_unchanged :
    ∀ (P : Type) (emb : Vector2 → P) (font : Font) (sz : ℚ)
      (glyphs : List ShapedGlyph) (st : TextRenderer.State P),
      st.capacity < glyphs.length →
      TextRenderer.renderText emb font sz glyphs st = (false, st) ∧
      ∀ glyphs2 : List ShapedGlyph, glyphs2.length ≤ st.capacity →
        (TextRenderer.renderText emb font sz glyphs2
          (TextRenderer.renderText emb font sz glyphs st).2).1 = true := by
  intro P emb font sz glyphs st h
  have hfail : TextRenderer.renderText emb font sz glyphs st = (false, st) := by
    unfold TextRenderer.renderText
    rw [if_neg (by omega)]
  refine ⟨hfail, ?_⟩
  intro glyphs2 h2
  rw [hfail]
  unfold TextRenderer.renderText
  rw [if_pos h2]

/-- Witness for C4: capacity 1, then a 2-glyph text fails and leaves the
state intact; a 1-glyph text still succeeds afterwards. -/
theorem C4_capacity_exceeded_state_unchanged_witness :
    (TextRenderer.reserve 1 (TextRenderer.initial : TextRenderer.State Point2D)).capacity <
      ([sampleGlyph, sampleGlyph] : List ShapedGlyph).length ∧
    (TextRenderer.renderText point2 sampleFont 1 [sampleGlyph, sampleGlyph]
        (TextRenderer.reserve 1 (TextRenderer.initial : TextRenderer.State Point2D)) =
      (false, TextRenderer.reserve 1 (TextRenderer.initial : TextRenderer.State Point2D)) ∧
     ∀ glyphs2 : List ShapedGlyph,
       glyphs2.length ≤
         (TextRenderer.reserve 1 (TextRenderer.initial : TextRenderer.State Point2D)).capacity →
       (TextRenderer.renderText point2 sampleFont 1 glyphs2
         (TextRenderer.renderText point2 sampleFont 1 [sampleGlyph, sampleGlyph]
           (TextRenderer.reserve 1 (TextRenderer.initial : TextRenderer.State Point2D))).2).1 =
         true) :=
  ⟨by decide,
   C4_capacity_exceeded_state_unchanged Point2D point2 sampleFont 1
     [sampleGlyph, sampleGlyph]
     (TextRenderer.reserve 1 (TextRenderer.initial : TextRenderer.State Point2D))
     (by decide)⟩

/-- Claim C5: every within-capacity `render(text)` succeeds without touching
the index buffer contents (prefilled at `reserve` time) or its metadata,
changing only the mesh's active index count; in particular after
`reserve(N)` a zero-glyph render succeeds and sets the active index count
to 0. -/
theorem C5_render_preserves_index_buffer :
    (∀ (P : Type) (emb : Vector2 → P) (font : Font) (sz : ℚ)
      (glyphs : List ShapedGlyph) (st : TextRenderer.State P),
      glyphs.length ≤ st.capacity →
      (TextRenderer.renderText emb font sz glyphs st).1 = true ∧
      (TextRenderer.renderText emb font sz glyphs st).2.indexData = st.indexData ∧
      (TextRenderer.renderText emb font sz glyphs st).2.indexType = st.indexType ∧
      (TextRenderer.renderText emb font sz glyphs st).2.indicesSize = st.indicesSize ∧
      (TextRenderer.renderText emb font sz glyphs st).2.meshIndexCount =
        (glyphs.length * 6) % 2 ^ 32) ∧
    (∀ (P : Type) [Inhabited P] (emb : Vector2 → P) (font : Font) (sz : ℚ)
      (n : ℕ) (st0 : TextRenderer.State P),
      (TextRenderer.renderText emb font sz [] (TextRenderer.reserve n st0)).1 = true ∧
      (TextRenderer.renderText emb font sz [] (TextRenderer.reserve n st0)).2.indexData =
        (TextRenderer.reserve n st0).indexData ∧
      (TextRenderer.renderText emb font sz [] (TextRenderer.reserve n st0)).2.meshIndexCount =
        0) := by
  have main : ∀ (P : Type) (emb : Vector2 → P) (font : Font) (sz : ℚ)
      (glyphs : List ShapedGlyph) (st : TextRenderer.State P),
      glyphs.length ≤ st.capacity →
      (TextRenderer.renderText emb font sz glyphs st).1 = true ∧
      (TextRenderer.renderText emb font sz glyphs st).2.indexData = st.indexData ∧
      (TextRenderer.renderText emb font sz glyphs st).2.indexType = st.indexType ∧
      (TextRenderer.renderText emb font sz glyphs st).2.indicesSize = st.indicesSize ∧
      (TextRenderer.renderText emb font sz glyphs st).2.meshIndexCount =
        (glyphs.length * 6) % 2 ^ 32 := by
    intro P emb font sz glyphs st h
    unfold TextRenderer.renderText
    rw [if_pos h]
    exact ⟨rfl, rfl, rfl, rfl, rfl⟩
  refine ⟨main, ?_⟩
  intro P _ emb font sz n st0
  have h := main P emb font sz [] (TextRenderer.reserve n st0) (Nat.zero_le _)
  exact ⟨h.1, h.2.1, h.2.2.2.2⟩

/-- Witness for C5: capacity 1, one-glyph text within capacity. -/
theorem C5_render_preserves_index_buffer_witness :
    ([sampleGlyph] : List ShapedGlyph).length ≤
      (TextRenderer.reserve 1 (TextRenderer.initial : TextRenderer.State Point2D)).capacity ∧
    ((TextRenderer.renderText point2 sampleFont 1 [sampleGlyph]
        (TextRenderer.reserve 1 (TextRenderer.initial : TextRenderer.State Point2D))).1 = true ∧
     (TextRenderer.renderText point2 sampleFont 1 [sampleGlyph]
        (TextRenderer.reserve 1 (TextRenderer.initial : TextRenderer.State Point2D))).2.indexData =
       (TextRenderer.reserve 1 (TextRenderer.initial : TextRenderer.State Point2D)).indexData ∧
     (TextRenderer.renderText point2 sampleFont 1 [sampleGlyph]
        (TextRenderer.reserve 1 (TextRenderer.initial : TextRenderer.State Point2D))).2.indexType =
       (TextRenderer.reserve 1 (TextRenderer.initial : TextRenderer.State Point2D)).indexType ∧
     (TextRenderer.renderText point2 sampleFont 1 [sampleGlyph]
        (TextRenderer.reserve 1 (TextRenderer.initial : TextRenderer.State Point2D))).2.indicesSize =
       (TextRenderer.reserve 1 (TextRenderer.initial : TextRenderer.State Point2D)).indicesSize ∧
     (TextRenderer.renderText point2 sampleFont 1 [sampleGlyph]
        (TextRenderer.reserve 1 (TextRenderer.initial : TextRenderer.State Point2D))).2.meshIndexCount =
       (([sampleGlyph] : List ShapedGlyph).length * 6) % 2 ^ 32) :=
  ⟨by decide,
   C5_render_preserves_index_buffer.1 Point2D point2 sampleFont 1 [sampleGlyph]
     (TextRenderer.reserve 1 (TextRenderer.initial : TextRenderer.State Point2D))
     (by decide)⟩

/-- Claim C1 is violated by the code on one-glyph texts: the loop's
`if (i == 0) ... else if (i == glyphCount-1) ...` takes only the first
branch when the single glyph is both first and last, so the running
rectangle's top-right corner keeps its previous value `(0,0)` instead of
the glyph quad's top-right `(1,1)`; the bottom-left corner is updated as
specified. -/
theorem C1_single_glyph_topRight_not_updated :
    (TextRenderer.renderText point2 sampleFont 1 [sampleGlyph]
        (TextRenderer.reserve 1 (TextRenderer.initial : TextRenderer.State Point2D))).2.rectangle.topRight =
      ⟨0, 0⟩ ∧
    (specQuad sampleFont 1 [sampleGlyph] 0).topRight = ⟨1, 1⟩ ∧
    ((⟨0, 0⟩ : Vector2) ≠ ⟨1, 1⟩) ∧
    (TextRenderer.renderText point2 sampleFont 1 [sampleGlyph]
        (TextRenderer.reserve 1 (TextRenderer.initial : TextRenderer.State Point2D))).2.rectangle.bottomLeft =
      (specQuad sampleFont 1 [sampleGlyph] 0).bottomLeft := by
  refine ⟨rfl, ?_, by decide, ?_⟩
  · norm_num [specQuad, specCursor, specOffset, sampleFont, sampleGlyph, glyphAt,
      Rectangle.fromSize, Rectangle.size, Rectangle.left, Rectangle.bottom,
      Vector2.add_def, Vector2.hmul_def, Vector2.hdiv_def, Vector2.sub_def,
      Vector2.zero_def, Vector2.mk.injEq]
  · rw [specQuad, specCursor, Finset.range_zero, Finset.sum_empty]
    rfl

/-- Claim C7: the layout engine divides the shaper's offsets and advances
by `64 * fontSize`, places the quad at
`((cursor + offset + quadRect.bottomLeft) * renderSize, quadRect.size * renderSize)`,
and the cursor used for glyph `i` is the strictly sequential sum of the
advances of glyphs `0 .. i-1` starting from zero: the emitted positions are
exactly the spec quads at prefix-sum cursors. -/
theorem C7_layout_formulas_and_cursor :
    (∀ (font : Font) (sz : ℚ) (glyphs : List ShapedGlyph) (c : Vector2) (i : ℕ),
      TextLayouter.renderGlyph font sz glyphs c i =
        (Rectangle.fromSize
          ((c + specOffset font (glyphAt glyphs i) +
            ⟨(font.lookup (glyphAt glyphs i).codepoint).1.left,
             (font.lookup (glyphAt glyphs i).codepoint).1.bottom⟩) * sz)
          ((font.lookup (glyphAt glyphs i).codepoint).1.size * sz),
         (font.lookup (glyphAt glyphs i).codepoint).2,
         specAdvance font (glyphAt glyphs i))) ∧
    (∀ (P : Type) (emb : Vector2 → P) (xy : P → Vector2) (font : Font) (sz : ℚ)
      (glyphs : List ShapedGlyph),
      (TextRenderer.render emb xy font sz glyphs).1 =
        (List.range glyphs.length).flatMap
          (fun i => (TextRenderer.quadCorners (specQuad font sz glyphs i)).map emb)) :=
  ⟨renderGlyph_eq_spec,
   fun _ emb xy font sz glyphs => render_positions_eq emb xy font sz glyphs⟩

/-- Claim C6: the array-producing render variant emits exactly `4N`
positions and `4N` texcoords (four corners per glyph, top-left, bottom-left,
top-right, bottom-right), exactly `6N` indices following the
`[0,1,2,1,3,2]` pattern offset by `4*i` per quad, and a bounding rectangle
from glyph 0's quad bottom-left to glyph `N-1`'s quad top-right; a
zero-glyph text yields empty arrays and the default rectangle. -/
theorem C6_static_mesh_builder_output :
    ∀ (P : Type) (emb : Vector2 → P) (xy : P → Vector2) (font : Font) (sz : ℚ)
      (glyphs : List ShapedGlyph),
      (∀ v, xy (emb v) = v) → glyphs.length * 6 < 2 ^ 32 →
      ((TextRenderer.render emb xy font sz glyphs).1.length = 4 * glyphs.length ∧
       (TextRenderer.render emb xy font sz glyphs).2.1.length = 4 * glyphs.length ∧
       (TextRenderer.render emb xy font sz glyphs).2.2.1 =
         (List.range glyphs.length).flatMap
           (fun i => [4 * i, 4 * i + 1, 4 * i + 2, 4 * i + 1, 4 * i + 3, 4 * i + 2]) ∧
       (TextRenderer.render emb xy font sz glyphs).2.2.1.length = 6 * glyphs.length ∧
       (1 ≤ glyphs.length →
         (TextRenderer.render emb xy font sz glyphs).2.2.2 =
           ⟨(specQuad font sz glyphs 0).bottomLeft,
            (specQuad font sz glyphs (glyphs.length - 1)).topRight⟩) ∧
       (glyphs.length = 0 →
         TextRenderer.render emb xy font sz glyphs = ([], [], [], ⟨0, 0⟩))) := by
  intro P emb xy font sz glyphs hxy h32
  have hposlen : (TextRenderer.render emb xy font sz glyphs).1.length =
      4 * glyphs.length := by
    rw [render_positions_eq emb xy font sz glyphs,
      flatMap_const_length
        (fun i => (TextRenderer.quadCorners (specQuad font sz glyphs i)).map emb) 4
        (fun a => rfl), List.length_range]
  have hidx : (TextRenderer.render emb xy font sz glyphs).2.2.1 =
      (List.range glyphs.length).flatMap
        (fun i => [4 * i, 4 * i + 1, 4 * i + 2, 4 * i + 1, 4 * i + 3, 4 * i + 2]) := by
    have hraw : (TextRenderer.render emb xy font sz glyphs).2.2.1 =
        createIndices 32 glyphs.length
          (List.replicate ((glyphs.length * 6) % 2 ^ 32) 0) := rfl
    rw [hraw, Nat.mod_eq_of_lt h32,
      createIndices_eq 32 glyphs.length _ (Nat.le_of_lt h32) (by simp),
      List.drop_eq_nil_of_le (by simp), List.append_nil]
    apply flatMap_congr_left
    intro i hi
    have hig : i < glyphs.length := List.mem_range.mp hi
    have hi4 : i * 4 + 3 < 2 ^ 32 := by
      have hmul : (i + 1) * 4 ≤ glyphs.length * 4 :=
        mul_le_mul_right' (by omega) 4
      have hmul2 : glyphs.length * 4 ≤ glyphs.length * 6 :=
        mul_le_mul_left' (by omega) glyphs.length
      omega
    rw [glyphQuadIndices_eval 32 i hi4]
    simp [Nat.mul_comm]
  refine ⟨hposlen, ?_, hidx, ?_, ?_, ?_⟩
  · rw [render_texcoords_eq emb xy font sz glyphs,
      flatMap_const_length
        (fun i => TextRenderer.quadCorners (font.lookup (glyphAt glyphs i).codepoint).2) 4
        (fun a => rfl), List.length_range]
  · rw [hidx,
      flatMap_const_length
        (fun i => [4 * i, 4 * i + 1, 4 * i + 2, 4 * i + 1, 4 * i + 3, 4 * i + 2]) 6
        (fun a => rfl), List.length_range]
  · intro hg1
    have hrect : (TextRenderer.render emb xy font sz glyphs).2.2.2 =
        if glyphs.length ≠ 0 then
          (⟨xy ((TextRenderer.render emb xy font sz glyphs).1.getD 1 (emb 0)),
            xy ((TextRenderer.render emb xy font sz glyphs).1.getD
              ((TextRenderer.render emb xy font sz glyphs).1.length - 2) (emb 0))⟩ :
            Rectangle)
        else ⟨0, 0⟩ := rfl
    rw [hrect, if_pos (by omega)]
    have hbl : (TextRenderer.render emb xy font sz glyphs).1.getD 1 (emb 0) =
        emb (specQuad font sz glyphs 0).bottomLeft := by
      rw [render_positions_eq emb xy font sz glyphs,
        show (1 : ℕ) = 4 * 0 + 1 by norm_num,
        flatMap_blocks_getD
          (fun i => (TextRenderer.quadCorners (specQuad font sz glyphs i)).map emb) 4
          (fun a => rfl) _ 0 1 (emb 0) 0
          (by simp only [List.length_range]; omega) (by omega),
        range_getD _ 0 (by omega)]
      rfl
    have htr : (TextRenderer.render emb xy font sz glyphs).1.getD
        ((TextRenderer.render emb xy font sz glyphs).1.length - 2) (emb 0) =
        emb (specQuad font sz glyphs (glyphs.length - 1)).topRight := by
      rw [hposlen,
        show 4 * glyphs.length - 2 = 4 * (glyphs.length - 1) + 2 by omega,
        render_positions_eq emb xy font sz glyphs,
        flatMap_blocks_getD
          (fun i => (TextRenderer.quadCorners (specQuad font sz glyphs i)).map emb) 4
          (fun a => rfl) _ (glyphs.length - 1) 2 (emb 0) 0
          (by simp only [List.length_range]; omega) (by omega),
        range_getD _ (glyphs.length - 1) (by omega)]
      rfl
    rw [hbl, htr, hxy, hxy]
  · intro h0
    have : glyphs = [] := List.length_eq_zero.mp h0
    subst this
    rfl

/-- Witness for C6 at a concrete one-glyph text in the 2D instantiation. -/
theorem C6_static_mesh_builder_output_witness :
    (∀ v, Point2D.xy (point2 v) = v) ∧
    ([sampleGlyph] : List ShapedGlyph).length * 6 < 2 ^ 32 ∧
    ((TextRenderer.render point2 Point2D.xy sampleFont 1 [sampleGlyph]).1.length =
       4 * ([sampleGlyph] : List ShapedGlyph).length ∧
     (TextRenderer.render point2 Point2D.xy sampleFont 1 [sampleGlyph]).2.1.length =
       4 * ([sampleGlyph] : List ShapedGlyph).length ∧
     (TextRenderer.render point2 Point2D.xy sampleFont 1 [sampleGlyph]).2.2.1 =
       (List.range ([sampleGlyph] : List ShapedGlyph).length).flatMap
         (fun i => [4 * i, 4 * i + 1, 4 * i + 2, 4 * i + 1, 4 * i + 3, 4 * i + 2]) ∧
     (TextRenderer.render point2 Point2D.xy sampleFont 1 [sampleGlyph]).2.2.1.length =
       6 * ([sampleGlyph] : List ShapedGlyph).length ∧
     (1 ≤ ([sampleGlyph] : List ShapedGlyph).length →
       (TextRenderer.render point2 Point2D.xy sampleFont 1 [sampleGlyph]).2.2.2 =
         ⟨(specQuad sampleFont 1 [sampleGlyph] 0).bottomLeft,
          (specQuad sampleFont 1 [sampleGlyph]
            (([sampleGlyph] : List ShapedGlyph).length - 1)).topRight⟩) ∧
     (([sampleGlyph] : List ShapedGlyph).length = 0 →
       TextRenderer.render point2 Point2D.xy sampleFont 1 [sampleGlyph] =
         ([], [], [], ⟨0, 0⟩))) :=
  ⟨fun v => rfl, by decide,
   C6_static_mesh_builder_output Point2D point2 Point2D.xy sampleFont 1 [sampleGlyph]
     (fun v => rfl) (by decide)⟩

end Magnum
